import Mathlib

/-!
# Verification of the superpowers symlink installer (`install.py`)

Shallow embedding of the reconciliation engine of `install.py`:
the status classifier (`Item.check_status`), discovery (`discover_items`),
and the reconciler (`apply_changes`, `_install_item`, `_uninstall_item`).

The filesystem is modelled as a finite association list from absolute paths
(lists of components) to entries (regular file with contents, directory, or
symbolic link holding an absolute target path).  Python's `Path.exists`
follows symlinks; `Path.is_symlink` does not; `Path.resolve()` (non-strict)
follows chains of symlinks and returns the target path even when the final
target does not exist, raising only on symlink loops (modelled by fuel
exhaustion).  Symbolic links in *intermediate* path components are not
modelled: a path is an atomic key, matching the way `install.py` only ever
creates and removes links at final components.  Exception texts produced by
the OS (`str(e)`) are schematic strings; the installer's own messages are
reproduced verbatim.
-/

/-- An absolute filesystem path, as its list of components. -/
abbrev FsPath := List String

/-- A filesystem object: a regular file (with contents), a directory, or a
symbolic link carrying its target path. -/
inductive Entry
  | file (contents : String)
  | dir
  | symlink (target : FsPath)
  deriving DecidableEq, Repr

/-- Filesystem state: a finite association list from paths to entries. -/
abbrev FS := List (FsPath × Entry)

/-- Look up the entry stored at a path (first match wins). -/
def FS.lookup : FS → FsPath → Option Entry
  | [], _ => none
  | (q, e) :: rest, p => if p = q then some e else FS.lookup rest p

/-- Create an entry at a path. -/
def FS.insert (fs : FS) (p : FsPath) (e : Entry) : FS := (p, e) :: fs

/-- Remove the entry at a path (models `Path.unlink`). -/
def FS.erase (fs : FS) (p : FsPath) : FS := fs.filter (fun kv => !(kv.1 == p))

/-- Render a path the way Python prints a `Path` in an f-string. -/
def renderPath (p : FsPath) : String := "/" ++ String.intercalate "/" p

/-- Maximum symlink chain length before resolution fails, as the OS's
`ELOOP` limit does. -/
def maxLinkDepth : Nat := 40

/-- Follow the chain of symbolic links starting at `p`; `none` models the
`OSError` Python's `Path.resolve()` raises on a symlink loop.  A path with
no entry resolves to itself (non-strict resolution). -/
def resolveGo (fs : FS) : Nat → FsPath → Option FsPath
  | 0, _ => none
  | fuel + 1, p =>
    match FS.lookup fs p with
    | some (Entry.symlink t) => resolveGo fs fuel t
    | _ => some p

/-- Model of `Path.resolve()` (non-strict). -/
def resolveFS (fs : FS) (p : FsPath) : Option FsPath := resolveGo fs maxLinkDepth p

/-- Model of `Path.exists()`: follows symlinks; `False` on a broken link or
on a resolution error. -/
def pExists (fs : FS) (p : FsPath) : Bool :=
  match resolveFS fs p with
  | some q => (FS.lookup fs q).isSome
  | none => false

/-- Model of `Path.is_symlink()`: does not follow the link. -/
def isSymlink (fs : FS) (p : FsPath) : Bool :=
  match FS.lookup fs p with
  | some (Entry.symlink _) => true
  | _ => false

/-- Model of `Path.is_dir()`: follows symlinks. -/
def isDirAt (fs : FS) (p : FsPath) : Bool :=
  match resolveFS fs p with
  | some q => FS.lookup fs q = some Entry.dir
  | none => false

/-- Schematic text of the `OSError` raised by `Path.resolve()` on a loop. -/
def resolveErrorMsg (p : FsPath) : String :=
  "Too many levels of symbolic links: " ++ renderPath p

/-- Status enum `ItemStatus` from `install.py`. -/
inductive ItemStatus
  | NOT_INSTALLED
  | INSTALLED
  | CONFLICT
  deriving DecidableEq, BEq, Repr

/-- Dataclass `Item` from `install.py` (its fields). -/
structure Item where
  name : String
  category : String
  source_path : FsPath
  dest_path : FsPath
  status : ItemStatus := ItemStatus.NOT_INSTALLED
  selected : Bool := false
  error_message : Option String := none
  deriving DecidableEq, Repr

/-- Method `Item.check_status` from `install.py`, as a pure function of the
filesystem and the source/destination paths, returning the new
`(status, error_message)` pair. -/
def check_status (fs : FS) (sourcePath destPath : FsPath) : ItemStatus × Option String :=
  if !(pExists fs destPath) && !(isSymlink fs destPath) then
    (ItemStatus.NOT_INSTALLED, none)
  else if isSymlink fs destPath then
    match resolveFS fs destPath with
    | none => (ItemStatus.CONFLICT, some (resolveErrorMsg destPath))
    | some target =>
      match resolveFS fs sourcePath with
      | none => (ItemStatus.CONFLICT, some (resolveErrorMsg sourcePath))
      | some expected =>
        if target = expected then (ItemStatus.INSTALLED, none)
        else
          (ItemStatus.CONFLICT,
            some ("Symlink points to " ++ renderPath target ++ ", expected " ++
              renderPath expected))
  else
    (ItemStatus.CONFLICT,
      some ("Path exists but is not a symlink: " ++ renderPath destPath))

/-- Dataclass `Category` from `install.py`. -/
structure Category where
  name : String
  items : List Item
  deriving DecidableEq, Repr

/-- Property `Category.all_installed` from `install.py`. -/
def Category.all_installed (c : Category) : Bool :=
  c.items.all (fun it => it.status == ItemStatus.INSTALLED)

/-- Property `Category.all_selected` from `install.py`. -/
def Category.all_selected (c : Category) : Bool :=
  c.items.all (fun it => it.selected)

/-- Dataclass `OperationResult` from `install.py`. -/
structure OperationResult where
  item : Item
  action : String
  success : Bool
  message : String
  deriving DecidableEq, Repr

/-- Code-point comparison of character lists: the order Python uses to
compare strings (and hence to sort path names). -/
def charsLe : List Char → List Char → Bool
  | [], _ => true
  | _ :: _, [] => false
  | a :: as, b :: bs =>
    if a.toNat < b.toNat then true
    else if b.toNat < a.toNat then false
    else charsLe as bs

/-- String comparison by code points, as Python's `<=` on `str`. -/
def strLe (a b : String) : Bool := charsLe a.toList b.toList

/-- The string order as a relation, for sortedness statements. -/
def strLeRel (a b : String) : Prop := strLe a b = true

instance : DecidableRel strLeRel :=
  fun a b => (inferInstance : Decidable (strLe a b = true))

/-- Model of Python's `sorted` on a list of names. -/
def sortStrings (l : List String) : List String :=
  l.insertionSort strLeRel

/-- Names of the direct children of a directory, as listed by
`Path.iterdir` / `Path.glob` (order before sorting is the storage order). -/
def childNames (fs : FS) (dir : FsPath) : List String :=
  ((fs.map Prod.fst).filterMap (fun p =>
    if p.length = dir.length + 1 && p.take dir.length == dir then p.getLast? else none)).eraseDups

/-- Whether `glob("*.md")` matches a name: it must end in `.md` and, since
glob patterns do not match hidden files, must not begin with a dot. -/
def globMatchMd (n : String) : Bool :=
  (match n.toList.reverse with
   | 'd' :: 'm' :: '.' :: _ => true
   | _ => false) &&
  (match n.toList with
   | '.' :: _ => false
   | _ => true)

/-- Python's `Path.stem`: the filename with its final extension removed
(a leading dot or a trailing dot is not an extension separator). -/
def stem (n : String) : String :=
  let cs := n.toList
  match ((List.range cs.length).filter (fun i => cs.get? i == some '.')).getLast? with
  | some i => if 0 < i && i < cs.length - 1 then String.mk (cs.take i) else n
  | none => n

/-- Build one freshly discovered `Item`: `discover_items` constructs the
item, runs `check_status` on it, and sets `selected` to
`status == INSTALLED`. -/
def mkItem (fs : FS) (category name : String) (src dst : FsPath) : Item :=
  let st := check_status fs src dst
  { name := name, category := category, source_path := src, dest_path := dst,
    status := st.1, error_message := st.2,
    selected := st.1 == ItemStatus.INSTALLED }

/-- The commands/agents arm of `discover_items`: every `*.md` file directly
under `<sourceDir>/<catName>`, sorted, named by its stem, destined for
`<claudeDir>/<catName>/<filename>`. -/
def discoverFileCategory (fs : FS) (sourceDir claudeDir : FsPath) (catName : String) :
    List Item :=
  let srcDir := sourceDir ++ [catName]
  let dstDir := claudeDir ++ [catName]
  (sortStrings ((childNames fs srcDir).filter globMatchMd)).map (fun fname =>
    mkItem fs catName (stem fname) (srcDir ++ [fname]) (dstDir ++ [fname]))

/-- The skills arm of `discover_items`: every immediate subdirectory of
`<sourceDir>/skills` containing `SKILL.md`, sorted, named by the directory
name, destined for `<claudeDir>/skills/<name>`. -/
def discoverSkills (fs : FS) (sourceDir claudeDir : FsPath) : List Item :=
  let srcDir := sourceDir ++ ["skills"]
  let dstDir := claudeDir ++ ["skills"]
  ((sortStrings (childNames fs srcDir)).filter (fun d =>
    isDirAt fs (srcDir ++ [d]) && pExists fs (srcDir ++ [d, "SKILL.md"]))).map
    (fun d => mkItem fs "skills" d (srcDir ++ [d]) (dstDir ++ [d]))

/-- Function `discover_items` from `install.py`: each of the three fixed categories
is scanned only if its source subdirectory exists, and appended to the
result only if it produced at least one item. -/
def discover_items (fs : FS) (sourceDir claudeDir : FsPath) : List Category :=
  (if pExists fs (sourceDir ++ ["commands"]) then
    (let items := discoverFileCategory fs sourceDir claudeDir "commands"
     if items.isEmpty then [] else [{ name := "commands", items := items }])
   else []) ++
  (if pExists fs (sourceDir ++ ["skills"]) then
    (let items := discoverSkills fs sourceDir claudeDir
     if items.isEmpty then [] else [{ name := "skills", items := items }])
   else []) ++
  (if pExists fs (sourceDir ++ ["agents"]) then
    (let items := discoverFileCategory fs sourceDir claudeDir "agents"
     if items.isEmpty then [] else [{ name := "agents", items := items }])
   else [])

/-- One step of `Path.mkdir(exist_ok=True)` on a single directory: a no-op
if the path already resolves to a directory, creation if nothing is there,
and an `OSError` (schematic text) if something else occupies the path. -/
def mkdir1 (fs : FS) (p : FsPath) : FS × Option String :=
  if isDirAt fs p then (fs, none)
  else
    match FS.lookup fs p with
    | none => (FS.insert fs p Entry.dir, none)
    | some _ => (fs, some ("FileExistsError: " ++ renderPath p))

/-- Create each directory of a prefix chain in turn, stopping at the first
error; directories created before the error persist, as they do under
`Path.mkdir(parents=True)`. -/
def mkdirGo (fs : FS) : List FsPath → FS × Option String
  | [] => (fs, none)
  | q :: rest =>
    match mkdir1 fs q with
    | (fs1, some e) => (fs1, some e)
    | (fs1, none) => mkdirGo fs1 rest

/-- Model of `Path.mkdir(parents=True, exist_ok=True)`: ensure every prefix
of `p` (shortest first, ending with `p` itself) is a directory. -/
def mkdirParents (fs : FS) (p : FsPath) : FS × Option String :=
  mkdirGo fs ((List.range p.length).map (fun i => p.take (i + 1)))

/-- Model of `Path.symlink_to`: fails if the destination already has an
entry or its parent directory does not exist; otherwise records the link. -/
def symlinkTo (fs : FS) (dest target : FsPath) : FS × Option String :=
  if (FS.lookup fs dest).isSome then
    (fs, some ("FileExistsError: " ++ renderPath dest))
  else if dest.isEmpty || !(isDirAt fs dest.dropLast) then
    (fs, some ("FileNotFoundError: " ++ renderPath dest))
  else
    (FS.insert fs dest (Entry.symlink target), none)

/-- Method `_install_item` from `install.py`: ensure the category directory
exists, refuse if the destination path already exists or is a symlink,
otherwise create the symlink.  Exceptions are caught and become failed
results carrying the exception text. -/
def _install_item (fs : FS) (item : Item) (destDir : FsPath) : FS × OperationResult :=
  match mkdirParents fs destDir with
  | (fs1, some e) => (fs1, ⟨item, "install", false, e⟩)
  | (fs1, none) =>
    if pExists fs1 item.dest_path || isSymlink fs1 item.dest_path then
      (fs1, ⟨item, "install", false,
        "Destination already exists: " ++ renderPath item.dest_path⟩)
    else
      match symlinkTo fs1 item.dest_path item.source_path with
      | (fs2, some e) => (fs2, ⟨item, "install", false, e⟩)
      | (fs2, none) => (fs2, ⟨item, "install", true,
          "Created symlink: " ++ renderPath item.dest_path ++ " -> " ++
            renderPath item.source_path⟩)

/-- Method `_uninstall_item` from `install.py`: refuse unless the destination is a
symlink; refuse unless its resolution equals the source's resolution (the
source branches on `target != expected`, modelled here by the equivalent
branch on `target = expected`); only then unlink.  Resolution errors are
caught and become failed results. -/
def _uninstall_item (fs : FS) (item : Item) : FS × OperationResult :=
  if !(isSymlink fs item.dest_path) then
    (fs, ⟨item, "uninstall", false, "Not a symlink: " ++ renderPath item.dest_path⟩)
  else
    match resolveFS fs item.dest_path with
    | none => (fs, ⟨item, "uninstall", false, resolveErrorMsg item.dest_path⟩)
    | some target =>
      match resolveFS fs item.source_path with
      | none => (fs, ⟨item, "uninstall", false, resolveErrorMsg item.source_path⟩)
      | some expected =>
        if target = expected then
          (FS.erase fs item.dest_path,
            ⟨item, "uninstall", true, "Removed symlink: " ++ renderPath item.dest_path⟩)
        else
          (fs, ⟨item, "uninstall", false,
            "Symlink points elsewhere: " ++ renderPath target⟩)

/-- How Python interpolates an `Optional[str]` into an f-string. -/
def pyFormatOpt : Option String → String
  | none => "None"
  | some s => s

/-- The per-item dispatch of `apply_changes`: the four-armed `if`/`elif`
chain over `(selected, status)`, in source order. -/
def processItem (fs : FS) (destDir : FsPath) (item : Item) : FS × Option OperationResult :=
  if item.selected && !(item.status == ItemStatus.INSTALLED) then
    match _install_item fs item destDir with
    | (fs1, r) => (fs1, some r)
  else if !item.selected && item.status == ItemStatus.INSTALLED then
    match _uninstall_item fs item with
    | (fs1, r) => (fs1, some r)
  else if item.selected && item.status == ItemStatus.CONFLICT then
    (fs, some ⟨item, "install", false,
      "Cannot install: " ++ pyFormatOpt item.error_message⟩)
  else if !item.selected && item.status == ItemStatus.CONFLICT then
    (fs, some ⟨item, "uninstall", false,
      "Cannot uninstall: " ++ pyFormatOpt item.error_message⟩)
  else
    (fs, none)

/-- The inner loop of `apply_changes` over one category's items. -/
def processItems (fs : FS) (destDir : FsPath) : List Item → FS × List OperationResult
  | [] => (fs, [])
  | item :: rest =>
    match processItem fs destDir item with
    | (fs1, r?) =>
      match processItems fs1 destDir rest with
      | (fs2, rs) => (fs2, r?.toList ++ rs)

/-- The destination directory `apply_changes` chooses from the category
name; `none` models the `continue` for an unknown category. -/
def destDirFor (claudeDir : FsPath) (name : String) : Option FsPath :=
  if name = "commands" then some (claudeDir ++ ["commands"])
  else if name = "skills" then some (claudeDir ++ ["skills"])
  else if name = "agents" then some (claudeDir ++ ["agents"])
  else none

/-- The outer loop of `apply_changes` over the categories. -/
def applyCategories (fs : FS) (claudeDir : FsPath) : List Category → FS × List OperationResult
  | [] => (fs, [])
  | c :: rest =>
    match (match destDirFor claudeDir c.name with
           | none => (fs, ([] : List OperationResult))
           | some d => processItems fs d c.items) with
    | (fs1, rs1) =>
      match applyCategories fs1 claudeDir rest with
      | (fs2, rs2) => (fs2, rs1 ++ rs2)

/-- The post-batch refresh of `apply_changes`: re-run `check_status` on an
item and reset its selection to match the new status. -/
def refreshItem (fs : FS) (item : Item) : Item :=
  let st := check_status fs item.source_path item.dest_path
  { item with
    status := st.1
    error_message := st.2
    selected := st.1 == ItemStatus.INSTALLED }

/-- Method `apply_changes` from `install.py`: process every category's items,
then refresh every item's status and selection against the final
filesystem.  Returns the final filesystem, the result list, and the
refreshed categories. -/
def apply_changes (fs : FS) (claudeDir : FsPath) (cats : List Category) :
    FS × List OperationResult × List Category :=
  match applyCategories fs claudeDir cats with
  | (fs1, results) =>
    (fs1, results, cats.map (fun c => { c with items := c.items.map (refreshItem fs1) }))

/-- The filename of an artifact's source entry: the last component of its
source path (for skills this is the directory name, i.e. the artifact
name; for commands/agents it is the name with its `.md` extension). -/
def srcFileName (it : Item) : String := it.source_path.getLastD ""

/-- An artifact whose current status already matches its desired
selection: Installed and selected, or NotInstalled and unselected. -/
def statusMatchesSelection (it : Item) : Prop :=
  (it.selected = true ∧ it.status = ItemStatus.INSTALLED) ∨
  (it.selected = false ∧ it.status = ItemStatus.NOT_INSTALLED)

/-- Sample world: a repository with one command, correctly installed as a
symlink under the destination tree. -/
def repoFS : FS := [
  (["repo"], Entry.dir),
  (["repo", "commands"], Entry.dir),
  (["repo", "commands", "foo.md"], Entry.file "cmd"),
  (["home"], Entry.dir),
  (["home", ".claude"], Entry.dir),
  (["home", ".claude", "commands"], Entry.dir),
  (["home", ".claude", "commands", "foo.md"],
    Entry.symlink ["repo", "commands", "foo.md"]) ]

/-- The installed `foo` command of `repoFS`. -/
def itemFoo : Item where
  name := "foo"
  category := "commands"
  source_path := ["repo", "commands", "foo.md"]
  dest_path := ["home", ".claude", "commands", "foo.md"]
  status := ItemStatus.INSTALLED
  selected := true

/-- The item `itemFoo` deselected, requesting an uninstall. -/
def itemFooOff : Item := { itemFoo with selected := false }

/-- The category `discover_items` builds for `repoFS`. -/
def catFoo : Category where
  name := "commands"
  items := discoverFileCategory repoFS ["repo"] ["home", ".claude"] "commands"

/-- Sample world: the destination path is occupied by a regular file, so
the `foo` artifact is in conflict. -/
def conflictFS : FS := [
  (["repo"], Entry.dir),
  (["repo", "commands"], Entry.dir),
  (["repo", "commands", "foo.md"], Entry.file "cmd"),
  (["home"], Entry.dir),
  (["home", ".claude"], Entry.dir),
  (["home", ".claude", "commands"], Entry.dir),
  (["home", ".claude", "commands", "foo.md"], Entry.file "other") ]

/-- The conflicting `foo` artifact of `conflictFS`, as discovery would
report it (status Conflict with its detail), selected for install. -/
def itemConflict : Item where
  name := "foo"
  category := "commands"
  source_path := ["repo", "commands", "foo.md"]
  dest_path := ["home", ".claude", "commands", "foo.md"]
  status := ItemStatus.CONFLICT
  selected := true
  error_message := some "Path exists but is not a symlink: /home/.claude/commands/foo.md"

/-- Sample world: the artifact's recorded destination is a stray existing
file outside the category directory, and the category directory itself
does not exist yet. -/
def strayFS : FS := [
  (["home"], Entry.dir),
  (["home", ".claude"], Entry.dir),
  (["tmp"], Entry.dir),
  (["tmp", "foo.md"], Entry.file "stray"),
  (["repo"], Entry.dir),
  (["repo", "commands"], Entry.dir),
  (["repo", "commands", "foo.md"], Entry.file "cmd") ]

/-- The artifact of `strayFS`, selected for install. -/
def itemStray : Item where
  name := "foo"
  category := "commands"
  source_path := ["repo", "commands", "foo.md"]
  dest_path := ["tmp", "foo.md"]
  status := ItemStatus.NOT_INSTALLED
  selected := true

/-- Sample world: source present, nothing at the destination yet (the
destination category directory is absent too). -/
def freshFS : FS := [
  (["home"], Entry.dir),
  (["home", ".claude"], Entry.dir),
  (["repo"], Entry.dir),
  (["repo", "commands"], Entry.dir),
  (["repo", "commands", "foo.md"], Entry.file "cmd") ]

/-- The not-yet-installed `foo` artifact of `freshFS`, selected. -/
def itemFresh : Item where
  name := "foo"
  category := "commands"
  source_path := ["repo", "commands", "foo.md"]
  dest_path := ["home", ".claude", "commands", "foo.md"]
  status := ItemStatus.NOT_INSTALLED
  selected := true

/-- Sample world: the destination holds a symlink to a path that does not
exist, while the source does not exist either and the link happens to name
the source path itself. -/
def danglingFS : FS := [
  (["home", ".claude", "commands", "foo.md"],
    Entry.symlink ["repo", "commands", "foo.md"]) ]

/-- Sample world: a dangling destination link pointing away from an
existing source. -/
def danglingElsewhereFS : FS := [
  (["repo"], Entry.dir),
  (["repo", "commands"], Entry.dir),
  (["repo", "commands", "foo.md"], Entry.file "cmd"),
  (["home", ".claude", "commands", "foo.md"], Entry.symlink ["tmp", "gone"]) ]

/-- Sample world for the discovery order counterexample: two command files
whose stems contain a dot. -/
def dottedFS : FS := [
  (["repo"], Entry.dir),
  (["repo", "commands"], Entry.dir),
  (["repo", "commands", "a.b.md"], Entry.file "x"),
  (["repo", "commands", "a.md"], Entry.file "y"),
  (["home"], Entry.dir),
  (["home", ".claude"], Entry.dir) ]

/-! ## Order lemmas for the string comparison -/

theorem charsLe_total : ∀ as bs : List Char, charsLe as bs = true ∨ charsLe bs as = true
  | [], _ => Or.inl rfl
  | _ :: _, [] => Or.inr rfl
  | a :: as, b :: bs => by
    rcases Nat.lt_trichotomy a.toNat b.toNat with h | h | h
    · exact Or.inl (by simp [charsLe, h])
    · have hab : ¬ a.toNat < b.toNat := by omega
      have hba : ¬ b.toNat < a.toNat := by omega
      rcases charsLe_total as bs with ih | ih
      · exact Or.inl (by simp [charsLe, hab, hba, ih])
      · exact Or.inr (by simp [charsLe, hab, hba, ih])
    · exact Or.inr (by simp [charsLe, h])

theorem charsLe_trans : ∀ as bs cs : List Char,
    charsLe as bs = true → charsLe bs cs = true → charsLe as cs = true
  | [], _, _, _, _ => rfl
  | _ :: _, [], _, h1, _ => by simp [charsLe] at h1
  | _ :: _, _ :: _, [], _, h2 => by simp [charsLe] at h2
  | a :: as, b :: bs, c :: cs, h1, h2 => by
    simp only [charsLe] at h1 h2 ⊢
    split_ifs at h1 h2 ⊢ <;>
      first
      | rfl
      | omega
      | (exact charsLe_trans as bs cs h1 h2)

instance : IsTotal String strLeRel :=
  ⟨fun a b => charsLe_total a.toList b.toList⟩

instance : IsTrans String strLeRel :=
  ⟨fun a b c h1 h2 => charsLe_trans a.toList b.toList c.toList h1 h2⟩

theorem sortStrings_sorted (l : List String) :
    List.Sorted strLeRel (sortStrings l) :=
  List.sorted_insertionSort strLeRel l

/-! ## Basic filesystem lemmas -/

theorem FS.lookup_insert (fs : FS) (p : FsPath) (e : Entry) (q : FsPath) :
    FS.lookup (FS.insert fs p e) q = if q = p then some e else FS.lookup fs q := by
  simp [FS.insert, FS.lookup]

theorem resolveGo_succ (fs : FS) (n : Nat) (p : FsPath) :
    resolveGo fs (n + 1) p =
      match FS.lookup fs p with
      | some (Entry.symlink t) => resolveGo fs n t
      | _ => some p := rfl

theorem maxLinkDepth_succ : maxLinkDepth = 39 + 1 := rfl

theorem resolveFS_of_not_symlink (fs : FS) (p : FsPath)
    (h : isSymlink fs p = false) : resolveFS fs p = some p := by
  unfold resolveFS
  rw [maxLinkDepth_succ, resolveGo_succ]
  unfold isSymlink at h
  rcases hl : FS.lookup fs p with _ | e
  · simp [hl]
  · cases e <;> simp_all

theorem guard_true_of_lookup_some {fs : FS} {p : FsPath} {e : Entry}
    (h : FS.lookup fs p = some e) : (pExists fs p || isSymlink fs p) = true := by
  cases e with
  | symlink t => simp [isSymlink, h]
  | file c =>
    have hs : isSymlink fs p = false := by simp [isSymlink, h]
    have hr := resolveFS_of_not_symlink fs p hs
    simp [pExists, hr, h]
  | dir =>
    have hs : isSymlink fs p = false := by simp [isSymlink, h]
    have hr := resolveFS_of_not_symlink fs p hs
    simp [pExists, hr, h]

theorem lookup_none_of_guards_false {fs : FS} {p : FsPath}
    (he : pExists fs p = false) (hs : isSymlink fs p = false) :
    FS.lookup fs p = none := by
  rcases hl : FS.lookup fs p with _ | e
  · rfl
  · have := guard_true_of_lookup_some hl
    simp [he, hs] at this

theorem lookup_some_of_pExists {fs : FS} {p : FsPath}
    (hs : isSymlink fs p = false) (he : pExists fs p = true) :
    ∃ e, FS.lookup fs p = some e := by
  rcases hl : FS.lookup fs p with _ | e
  · have hr := resolveFS_of_not_symlink fs p hs
    simp [pExists, hr, hl] at he
  · exact ⟨e, rfl⟩

/-! ## Lemmas about directory creation -/

theorem mkdir1_lookup_mono (fs : FS) (q : FsPath) {k : FsPath} {e : Entry}
    (h : FS.lookup fs k = some e) : FS.lookup (mkdir1 fs q).1 k = some e := by
  unfold mkdir1
  split
  · exact h
  · rcases hl : FS.lookup fs q with _ | v
    · simp only [hl]
      rw [FS.lookup_insert]
      split
      · rename_i hkq; rw [hkq] at h; rw [h] at hl; cases hl
      · exact h
    · simp only [hl]; exact h

theorem mkdirGo_lookup_mono : ∀ (l : List FsPath) (fs : FS) {k : FsPath} {e : Entry},
    FS.lookup fs k = some e → FS.lookup (mkdirGo fs l).1 k = some e
  | [], _, _, _, h => h
  | q :: rest, fs, k, e, h => by
    unfold mkdirGo
    rcases hm : mkdir1 fs q with ⟨fs1, e?⟩
    have h1 : FS.lookup fs1 k = some e := by
      have := mkdir1_lookup_mono fs q h
      rw [hm] at this; exact this
    cases e? with
    | some err => simpa using h1
    | none => simpa using mkdirGo_lookup_mono rest fs1 h1

theorem mkdirParents_lookup_mono (fs : FS) (p : FsPath) {k : FsPath} {e : Entry}
    (h : FS.lookup fs k = some e) : FS.lookup (mkdirParents fs p).1 k = some e :=
  mkdirGo_lookup_mono _ fs h

theorem mkdirGo_cons (fs : FS) (q : FsPath) (rest : List FsPath) :
    mkdirGo fs (q :: rest) =
      match mkdir1 fs q with
      | (fs1, some e) => (fs1, some e)
      | (fs1, none) => mkdirGo fs1 rest := rfl

theorem mkdir1_ensures_dir (fs : FS) (q : FsPath)
    (h : (mkdir1 fs q).2 = none) : isDirAt (mkdir1 fs q).1 q = true := by
  unfold mkdir1 at h ⊢
  split_ifs at h ⊢ with hd
  · exact hd
  · rcases hl : FS.lookup fs q with _ | v
    · have hlk : FS.lookup (FS.insert fs q Entry.dir) q = some Entry.dir := by
        rw [FS.lookup_insert]; simp
      show isDirAt (FS.insert fs q Entry.dir) q = true
      unfold isDirAt resolveFS
      rw [maxLinkDepth_succ, resolveGo_succ, hlk]
      simp [hlk]
    · simp [hl] at h

theorem mkdirGo_ensures_last : ∀ (l : List FsPath) (fs fs' : FS) (q : FsPath),
    mkdirGo fs (l ++ [q]) = (fs', none) → isDirAt fs' q = true
  | [], fs, fs', q, h => by
    rw [List.nil_append, mkdirGo_cons] at h
    rcases hm : mkdir1 fs q with ⟨fs1, e?⟩
    rw [hm] at h
    cases e? with
    | some err => simp at h
    | none =>
      simp only [mkdirGo] at h
      have hpost := mkdir1_ensures_dir fs q (by rw [hm])
      rw [hm] at hpost
      have h1 : fs1 = fs' := by
        have := congrArg Prod.fst h
        simpa using this
      rw [← h1]; exact hpost
  | a :: l, fs, fs', q, h => by
    rw [List.cons_append, mkdirGo_cons] at h
    rcases hm : mkdir1 fs a with ⟨fs1, e?⟩
    rw [hm] at h
    cases e? with
    | some err => simp at h
    | none => exact mkdirGo_ensures_last l fs1 fs' q h

theorem mkdirParents_ensures (fs : FS) (p : FsPath) (hp : p ≠ [])
    (h : (mkdirParents fs p).2 = none) : isDirAt (mkdirParents fs p).1 p = true := by
  obtain ⟨m, hm⟩ : ∃ m, p.length = m + 1 := ⟨p.length - 1, by cases p <;> simp_all⟩
  have htake : p.take (m + 1) = p := by
    rw [← hm]; exact List.take_length ..
  have hL : (List.range p.length).map (fun i => p.take (i + 1)) =
      ((List.range m).map (fun i => p.take (i + 1))) ++ [p] := by
    rw [hm, List.range_succ, List.map_append]
    simp [htake]
  unfold mkdirParents at h ⊢
  rw [hL] at h ⊢
  rcases hg : mkdirGo fs (((List.range m).map (fun i => p.take (i + 1))) ++ [p])
    with ⟨fs', e?⟩
  cases e? with
  | some err => rw [hg] at h; simp at h
  | none => exact mkdirGo_ensures_last _ fs fs' p hg

/-! ## Lemmas about install/uninstall -/

theorem install_no_overwrite (fs : FS) (item : Item) (destDir : FsPath) {e : Entry}
    (h : FS.lookup fs item.dest_path = some e) :
    (_install_item fs item destDir).2.success = false ∧
    FS.lookup (_install_item fs item destDir).1 item.dest_path = some e := by
  unfold _install_item
  rcases hm : mkdirParents fs destDir with ⟨fs1, mkErr⟩
  have h1 : FS.lookup fs1 item.dest_path = some e := by
    have := mkdirParents_lookup_mono fs destDir h
    rw [hm] at this; exact this
  cases mkErr with
  | some err => exact ⟨rfl, h1⟩
  | none =>
    have hg := guard_true_of_lookup_some h1
    refine ⟨?_, ?_⟩ <;> simp [hg, h1]

theorem conflict_lookup_some {fs : FS} {src dst : FsPath}
    (h : (check_status fs src dst).1 = ItemStatus.CONFLICT) :
    ∃ e, FS.lookup fs dst = some e := by
  rcases hl : FS.lookup fs dst with _ | e
  · have hs : isSymlink fs dst = false := by simp [isSymlink, hl]
    have hr := resolveFS_of_not_symlink fs dst hs
    have he : pExists fs dst = false := by simp [pExists, hr, hl]
    rw [check_status] at h
    simp [he, hs] at h
  · exact ⟨e, rfl⟩

/-! ## Claim theorems -/

/-- Claim C3. The status classifier reports Installed iff destPath is a
symbolic link whose resolution succeeds and equals sourcePath's
resolution; a non-existent non-symlink destPath yields NotInstalled; any
existing destPath (or symlink) not satisfying the Installed condition
yields Conflict. -/
theorem check_status_correct (fs : FS) (src dst : FsPath) :
    ((check_status fs src dst).1 = ItemStatus.INSTALLED ↔
      (isSymlink fs dst = true ∧ resolveFS fs dst ≠ none ∧
        resolveFS fs dst = resolveFS fs src)) ∧
    (pExists fs dst = false → isSymlink fs dst = false →
      (check_status fs src dst).1 = ItemStatus.NOT_INSTALLED) ∧
    ((pExists fs dst = true ∨ isSymlink fs dst = true) →
      ¬(isSymlink fs dst = true ∧ resolveFS fs dst ≠ none ∧
        resolveFS fs dst = resolveFS fs src) →
      (check_status fs src dst).1 = ItemStatus.CONFLICT) := by
  refine ⟨⟨?_, ?_⟩, ?_, ?_⟩
  · intro h
    rw [check_status] at h
    by_cases hs : isSymlink fs dst
    · rcases hr : resolveFS fs dst with _ | t
      · simp [hs, hr] at h
      · rcases hr' : resolveFS fs src with _ | e
        · simp [hs, hr, hr'] at h
        · by_cases hte : t = e
          · subst hte
            exact ⟨hs, by simp, rfl⟩
          · simp [hs, hr, hr', hte] at h
    · simp only [Bool.not_eq_true] at hs
      simp [hs] at h
      split_ifs at h
  · rintro ⟨hs, hne, heq⟩
    rcases hr : resolveFS fs dst with _ | t
    · exact absurd hr hne
    · have hr' : resolveFS fs src = some t := by rw [← heq, hr]
      rw [check_status]
      simp [hs, hr, hr']
  · intro he hs
    rw [check_status]
    simp [he, hs]
  · intro hguard hnot
    by_cases hs : isSymlink fs dst
    · rcases hr : resolveFS fs dst with _ | t
      · rw [check_status]; simp [hs, hr]
      · rcases hr' : resolveFS fs src with _ | e
        · rw [check_status]; simp [hs, hr, hr']
        · by_cases hte : t = e
          · exact absurd ⟨hs, by simp [hr], by rw [hr, hr', hte]⟩ hnot
          · rw [check_status]; simp [hs, hr, hr', hte]
    · simp only [Bool.not_eq_true] at hs
      have hpe : pExists fs dst = true := by
        rcases hguard with h | h
        · exact h
        · rw [h] at hs; cases hs
      rw [check_status]
      simp [hs, hpe]

/-- Witness for C3. The classifier applied to a concrete world where the
destination is absent: NotInstalled. -/
theorem check_status_correct_witness :
    (check_status freshFS ["repo", "commands", "foo.md"]
      ["home", ".claude", "commands", "foo.md"]).1 = ItemStatus.NOT_INSTALLED :=
  (check_status_correct freshFS ["repo", "commands", "foo.md"]
    ["home", ".claude", "commands", "foo.md"]).2.1 (by decide) (by decide)

/-- Claim C1. The Uninstall procedure refuses ("Not a symlink") when the
destination is not a symlink, refuses ("Symlink points elsewhere") when
its resolved target differs from the resolved source, removes the link
and reports success when both checks pass, and mutates the filesystem in
no other case: any mutation implies both checks passed, the result is a
success, and the change is exactly the removal of the destination link. -/
theorem uninstall_safety (fs : FS) (item : Item) :
    (isSymlink fs item.dest_path = false →
      _uninstall_item fs item =
        (fs, ⟨item, "uninstall", false,
          "Not a symlink: " ++ renderPath item.dest_path⟩)) ∧
    (∀ t e, isSymlink fs item.dest_path = true →
      resolveFS fs item.dest_path = some t →
      resolveFS fs item.source_path = some e → t ≠ e →
      _uninstall_item fs item =
        (fs, ⟨item, "uninstall", false,
          "Symlink points elsewhere: " ++ renderPath t⟩)) ∧
    (∀ t, isSymlink fs item.dest_path = true →
      resolveFS fs item.dest_path = some t →
      resolveFS fs item.source_path = some t →
      _uninstall_item fs item =
        (FS.erase fs item.dest_path,
          ⟨item, "uninstall", true,
            "Removed symlink: " ++ renderPath item.dest_path⟩)) ∧
    ((_uninstall_item fs item).1 ≠ fs →
      isSymlink fs item.dest_path = true ∧
      resolveFS fs item.dest_path ≠ none ∧
      resolveFS fs item.dest_path = resolveFS fs item.source_path ∧
      (_uninstall_item fs item).2.success = true ∧
      (_uninstall_item fs item).1 = FS.erase fs item.dest_path) := by
  refine ⟨?_, ?_, ?_, ?_⟩
  · intro hs
    unfold _uninstall_item
    simp [hs]
  · intro t e hs hr hr' hne
    unfold _uninstall_item
    simp [hs, hr, hr', hne]
  · intro t hs hr hr'
    unfold _uninstall_item
    simp [hs, hr, hr']
  · intro hmut
    by_cases hs : isSymlink fs item.dest_path
    · rcases hr : resolveFS fs item.dest_path with _ | t
      · exact absurd (show (_uninstall_item fs item).1 = fs by
          unfold _uninstall_item; simp [hs, hr]) hmut
      · rcases hr' : resolveFS fs item.source_path with _ | e
        · exact absurd (show (_uninstall_item fs item).1 = fs by
            unfold _uninstall_item; simp [hs, hr, hr']) hmut
        · by_cases hte : t = e
          · subst hte
            refine ⟨hs, by simp, rfl, ?_, ?_⟩ <;>
              · unfold _uninstall_item
                simp [hs, hr, hr']
          · exact absurd (show (_uninstall_item fs item).1 = fs by
              unfold _uninstall_item; simp [hs, hr, hr', hte]) hmut
    · simp only [Bool.not_eq_true] at hs
      exact absurd (show (_uninstall_item fs item).1 = fs by
        unfold _uninstall_item; simp [hs]) hmut

/-- Witness for C1. Uninstalling the correctly installed `foo` of
`repoFS` removes exactly the link and reports success. -/
theorem uninstall_safety_witness :
    _uninstall_item repoFS itemFooOff =
      (FS.erase repoFS itemFooOff.dest_path,
        ⟨itemFooOff, "uninstall", true,
          "Removed symlink: " ++ renderPath itemFooOff.dest_path⟩) :=
  (uninstall_safety repoFS itemFooOff).2.2.1 ["repo", "commands", "foo.md"]
    (by decide) (by decide) (by decide)

/-- Claim C4. The Install procedure first ensures the destination category
directory exists (creating it recursively); if the destination path
already exists or is a symlink it refuses with a descriptive failure and
does not overwrite the existing entry; otherwise it creates a symlink at
the destination pointing at the source and reports success with both
paths in the message. -/
theorem install_spec (fs : FS) (item : Item) (destDir : FsPath) (hd : destDir ≠ []) :
    ((mkdirParents fs destDir).2 = none →
      isDirAt (mkdirParents fs destDir).1 destDir = true) ∧
    ((mkdirParents fs destDir).2 = none →
      (pExists (mkdirParents fs destDir).1 item.dest_path ||
        isSymlink (mkdirParents fs destDir).1 item.dest_path) = true →
      _install_item fs item destDir =
        ((mkdirParents fs destDir).1,
          ⟨item, "install", false,
            "Destination already exists: " ++ renderPath item.dest_path⟩) ∧
      (∀ e, FS.lookup fs item.dest_path = some e →
        FS.lookup (_install_item fs item destDir).1 item.dest_path = some e)) ∧
    (∀ n, (mkdirParents fs destDir).2 = none →
      item.dest_path = destDir ++ [n] →
      (pExists (mkdirParents fs destDir).1 item.dest_path ||
        isSymlink (mkdirParents fs destDir).1 item.dest_path) = false →
      _install_item fs item destDir =
        (FS.insert (mkdirParents fs destDir).1 item.dest_path
          (Entry.symlink item.source_path),
          ⟨item, "install", true,
            "Created symlink: " ++ renderPath item.dest_path ++ " -> " ++
              renderPath item.source_path⟩)) := by
  refine ⟨fun h => mkdirParents_ensures fs destDir hd h, ?_, ?_⟩
  · rcases hm : mkdirParents fs destDir with ⟨fs1, e?⟩
    intro h hguard
    cases e? with
    | some err => simp at h
    | none =>
      constructor
      · unfold _install_item
        rw [hm]
        simp [hguard]
      · intro e he
        have h1 : FS.lookup fs1 item.dest_path = some e := by
          have hmm := mkdirParents_lookup_mono fs destDir he
          rw [hm] at hmm; exact hmm
        unfold _install_item
        rw [hm]
        simp [hguard, h1]
  · rcases hm : mkdirParents fs destDir with ⟨fs1, e?⟩
    intro n h hdest hguard
    cases e? with
    | some err => simp at h
    | none =>
      have hdir : isDirAt fs1 destDir = true := by
        have hmm := mkdirParents_ensures fs destDir hd (by rw [hm])
        rw [hm] at hmm; exact hmm
      obtain ⟨hpe, hsy⟩ :
          pExists fs1 item.dest_path = false ∧
            isSymlink fs1 item.dest_path = false := by
        constructor <;> simp_all
      have hnone : FS.lookup fs1 item.dest_path = none :=
        lookup_none_of_guards_false hpe hsy
      have hlink : symlinkTo fs1 item.dest_path item.source_path =
          (FS.insert fs1 item.dest_path (Entry.symlink item.source_path), none) := by
        unfold symlinkTo
        have hne : item.dest_path.isEmpty = false := by rw [hdest]; simp
        have hdl : item.dest_path.dropLast = destDir := by
          rw [hdest]; exact List.dropLast_concat ..
        simp [hnone, hne, hdl, hdir]
      unfold _install_item
      rw [hm]
      simp [hguard, hlink]

/-- Witness for C4. Installing the fresh `foo` of `freshFS` creates the
category directory and the symlink and reports success. -/
theorem install_spec_witness :
    _install_item freshFS itemFresh ["home", ".claude", "commands"] =
      (FS.insert (mkdirParents freshFS ["home", ".claude", "commands"]).1
        itemFresh.dest_path (Entry.symlink itemFresh.source_path),
        ⟨itemFresh, "install", true,
          "Created symlink: " ++ renderPath itemFresh.dest_path ++ " -> " ++
            renderPath itemFresh.source_path⟩) :=
  (install_spec freshFS itemFresh ["home", ".claude", "commands"]
    (by decide)).2.2 "foo.md" (by decide) (by decide) (by decide)

theorem processItem_conflict (fs : FS) (destDir : FsPath) (item : Item) {e : Entry}
    (hst : item.status = ItemStatus.CONFLICT)
    (he : FS.lookup fs item.dest_path = some e) :
    (processItem fs destDir item).2.map OperationResult.success = some false ∧
    FS.lookup (processItem fs destDir item).1 item.dest_path = some e := by
  have e1 : (ItemStatus.CONFLICT == ItemStatus.INSTALLED) = false := rfl
  have e2 : (ItemStatus.CONFLICT == ItemStatus.CONFLICT) = true := rfl
  cases hb : item.selected with
  | true =>
    have h1 := (install_no_overwrite fs item destDir he).1
    have h2 := (install_no_overwrite fs item destDir he).2
    unfold processItem
    rw [hst, hb]
    rcases hi : _install_item fs item destDir with ⟨fs1, r⟩
    rw [hi] at h1 h2
    simp only [e1, Bool.not_false, Bool.and_self, if_true]
    simpa using ⟨h1, h2⟩
  | false =>
    unfold processItem
    rw [hst, hb]
    simp [e1, e2, he]

/-- Claim C5. An artifact whose (freshly computed) status is Conflict is
never mutated by the reconciler: with either value of the selection flag,
`apply_changes` emits a failed result for it and leaves the entry at its
destination path unchanged in type and contents. -/
theorem conflict_never_mutated (fs : FS) (claudeDir : FsPath) (catName : String)
    (destDir : FsPath) (item : Item) (b : Bool)
    (hdd : destDirFor claudeDir catName = some destDir)
    (hst : item.status = ItemStatus.CONFLICT)
    (hfresh : (check_status fs item.source_path item.dest_path).1 =
      ItemStatus.CONFLICT) :
    ((apply_changes fs claudeDir
        [{ name := catName, items := [{ item with selected := b }] }]).2.1.map
      OperationResult.success = [false]) ∧
    FS.lookup (apply_changes fs claudeDir
        [{ name := catName, items := [{ item with selected := b }] }]).1
      item.dest_path = FS.lookup fs item.dest_path := by
  obtain ⟨e, he⟩ := conflict_lookup_some hfresh
  have hpc := processItem_conflict fs destDir { item with selected := b } hst he
  rcases hp : processItem fs destDir { item with selected := b } with ⟨fs1, r?⟩
  rw [hp] at hpc
  cases r? with
  | none => simp at hpc
  | some r =>
    have hsucc : r.success = false := by simpa using hpc.1
    have hlook : FS.lookup fs1 item.dest_path = some e := hpc.2
    unfold apply_changes applyCategories
    rw [hdd]
    unfold processItems
    rw [hp]
    unfold processItems applyCategories
    simp [hsucc, hlook, he]

/-- Witness for C5. Reconciling the conflicting `foo` of `conflictFS`
with selection on yields one failed result and leaves the conflicting
file untouched. -/
theorem conflict_never_mutated_witness :
    ((apply_changes conflictFS ["home", ".claude"]
        [{ name := "commands",
           items := [{ itemConflict with selected := true }] }]).2.1.map
      OperationResult.success = [false]) ∧
    FS.lookup (apply_changes conflictFS ["home", ".claude"]
        [{ name := "commands",
           items := [{ itemConflict with selected := true }] }]).1
      itemConflict.dest_path = FS.lookup conflictFS itemConflict.dest_path :=
  conflict_never_mutated conflictFS ["home", ".claude"] "commands"
    ["home", ".claude", "commands"] itemConflict true
    (by decide) (by decide) (by decide)

theorem processItem_noop (fs : FS) (destDir : FsPath) {item : Item}
    (h : statusMatchesSelection item) : processItem fs destDir item = (fs, none) := by
  have eII : (ItemStatus.INSTALLED == ItemStatus.INSTALLED) = true := rfl
  have eIC : (ItemStatus.INSTALLED == ItemStatus.CONFLICT) = false := rfl
  have eNI : (ItemStatus.NOT_INSTALLED == ItemStatus.INSTALLED) = false := rfl
  have eNC : (ItemStatus.NOT_INSTALLED == ItemStatus.CONFLICT) = false := rfl
  unfold processItem
  rcases h with ⟨hb, hst⟩ | ⟨hb, hst⟩ <;> rw [hb, hst] <;>
    simp [eII, eIC, eNI, eNC]

theorem processItems_noop : ∀ (items : List Item) (fs : FS) (destDir : FsPath),
    (∀ it ∈ items, statusMatchesSelection it) →
    processItems fs destDir items = (fs, [])
  | [], _, _, _ => rfl
  | item :: rest, fs, destDir, h => by
    have h1 := processItem_noop fs destDir (h item (List.mem_cons_self _ _))
    have h2 := processItems_noop rest fs destDir
      (fun it hit => h it (List.mem_cons_of_mem _ hit))
    unfold processItems
    simp [h1, h2]

theorem applyCategories_noop : ∀ (cats : List Category) (fs : FS) (claudeDir : FsPath),
    (∀ c ∈ cats, ∀ it ∈ c.items, statusMatchesSelection it) →
    applyCategories fs claudeDir cats = (fs, [])
  | [], _, _, _ => rfl
  | c :: rest, fs, claudeDir, h => by
    have hr : applyCategories fs claudeDir rest = (fs, []) :=
      applyCategories_noop rest fs claudeDir
        (fun c' hc' it hit => h c' (List.mem_cons_of_mem _ hc') it hit)
    unfold applyCategories
    cases hdd : destDirFor claudeDir c.name with
    | none => simp [hdd, hr]
    | some d =>
      have hi := processItems_noop c.items fs d
        (fun it hit => h c (List.mem_cons_self _ _) it hit)
      simp [hdd, hi, hr]

/-- Claim C6. When every artifact's status already matches its desired
selection (Installed with selection on, NotInstalled with selection off),
the reconciler performs no filesystem operation and emits no result. -/
theorem reconcile_matched_noop (fs : FS) (claudeDir : FsPath) (cats : List Category)
    (h : ∀ c ∈ cats, ∀ it ∈ c.items, statusMatchesSelection it) :
    (apply_changes fs claudeDir cats).1 = fs ∧
    (apply_changes fs claudeDir cats).2.1 = [] := by
  unfold apply_changes
  rw [applyCategories_noop cats fs claudeDir h]
  exact ⟨rfl, rfl⟩

/-- Witness for C6. Reconciling the already installed, selected `foo` of
`repoFS` performs nothing and emits nothing. -/
theorem reconcile_matched_noop_witness :
    (apply_changes repoFS ["home", ".claude"]
      [{ name := "commands", items := [itemFoo] }]).1 = repoFS ∧
    (apply_changes repoFS ["home", ".claude"]
      [{ name := "commands", items := [itemFoo] }]).2.1 = [] :=
  reconcile_matched_noop repoFS ["home", ".claude"]
    [{ name := "commands", items := [itemFoo] }]
    (by intro c hc it hit
        simp at hc
        subst hc
        simp at hit
        subst hit
        exact Or.inl ⟨rfl, rfl⟩)

/-- Claim C2, evaluated at the failing input. A selected Conflict artifact
is caught by the first branch of `apply_changes` (`selected and status !=
INSTALLED`) and handed to the Install procedure: the emitted failure
carries `_install_item`'s "Destination already exists" message, not the
stored conflict detail, so the dedicated Conflict refusal branch is dead
code. -/
theorem conflict_selected_install_eval :
    ((apply_changes conflictFS ["home", ".claude"]
        [{ name := "commands", items := [itemConflict] }]).2.1.map
      (fun r => (r.action, r.success, r.message)) =
      [("install", false,
        "Destination already exists: /home/.claude/commands/foo.md")]) ∧
    itemConflict.error_message =
      some "Path exists but is not a symlink: /home/.claude/commands/foo.md" ∧
    ("Destination already exists: /home/.claude/commands/foo.md" ≠
      "Path exists but is not a symlink: /home/.claude/commands/foo.md") ∧
    ("Destination already exists: /home/.claude/commands/foo.md" ≠
      "Cannot install: Path exists but is not a symlink: /home/.claude/commands/foo.md") :=
  ⟨by decide, rfl, by decide, by decide⟩

/-- Claim C9. A refused install can still modify the filesystem outside the
destination path: on `strayFS` the category directory does not exist
beforehand, the install is refused (the recorded destination already
exists elsewhere), yet the category directory has been created, while the
destination path itself is untouched. -/
theorem install_refusal_side_effect :
    FS.lookup strayFS ["home", ".claude", "commands"] = none ∧
    ((apply_changes strayFS ["home", ".claude"]
        [{ name := "commands", items := [itemStray] }]).2.1.map
      (fun r => (r.action, r.success)) = [("install", false)]) ∧
    FS.lookup (apply_changes strayFS ["home", ".claude"]
        [{ name := "commands", items := [itemStray] }]).1
      ["home", ".claude", "commands"] = some Entry.dir ∧
    FS.lookup (apply_changes strayFS ["home", ".claude"]
        [{ name := "commands", items := [itemStray] }]).1
      itemStray.dest_path = FS.lookup strayFS itemStray.dest_path :=
  ⟨rfl, by decide, by decide, by decide⟩

theorem mem_cat_block {cond : Prop} [Decidable cond] {name : String}
    {items : List Item} {cat : Category}
    (h : cat ∈ (if cond then
      (if items.isEmpty then ([] : List Category)
       else [{ name := name, items := items }]) else [])) :
    cond ∧ cat.name = name ∧ cat.items = items ∧ items ≠ [] := by
  by_cases hc : cond
  · rw [if_pos hc] at h
    by_cases he : items.isEmpty
    · rw [if_pos he] at h; simp at h
    · rw [if_neg he] at h
      rcases List.mem_singleton.mp h with rfl
      exact ⟨hc, rfl, rfl, by simpa using he⟩
  · rw [if_neg hc] at h; simp at h

theorem mem_discover_items {fs : FS} {s c : FsPath} {cat : Category}
    (h : cat ∈ discover_items fs s c) :
    cat.items ≠ [] ∧
    ((cat.name = "commands" ∧ pExists fs (s ++ ["commands"]) = true ∧
       cat.items = discoverFileCategory fs s c "commands") ∨
     (cat.name = "skills" ∧ pExists fs (s ++ ["skills"]) = true ∧
       cat.items = discoverSkills fs s c) ∨
     (cat.name = "agents" ∧ pExists fs (s ++ ["agents"]) = true ∧
       cat.items = discoverFileCategory fs s c "agents")) := by
  unfold discover_items at h
  rw [List.mem_append, List.mem_append] at h
  rcases h with (h | h) | h
  · obtain ⟨hp, hn, hi, hne⟩ := mem_cat_block h
    exact ⟨by rw [hi]; exact hne, Or.inl ⟨hn, hp, hi⟩⟩
  · obtain ⟨hp, hn, hi, hne⟩ := mem_cat_block h
    exact ⟨by rw [hi]; exact hne, Or.inr (Or.inl ⟨hn, hp, hi⟩)⟩
  · obtain ⟨hp, hn, hi, hne⟩ := mem_cat_block h
    exact ⟨by rw [hi]; exact hne, Or.inr (Or.inr ⟨hn, hp, hi⟩)⟩

theorem discoverFileCategory_sorted (fs : FS) (s c : FsPath) (catName : String) :
    List.Sorted strLeRel ((discoverFileCategory fs s c catName).map srcFileName) := by
  unfold discoverFileCategory
  rw [List.map_map]
  have hmap :
      (sortStrings ((childNames fs (s ++ [catName])).filter globMatchMd)).map
        (srcFileName ∘ fun fname =>
          mkItem fs catName (stem fname) ((s ++ [catName]) ++ [fname])
            ((c ++ [catName]) ++ [fname])) =
      (sortStrings ((childNames fs (s ++ [catName])).filter globMatchMd)).map id := by
    apply List.map_congr_left
    intro fname _
    show ((s ++ [catName]) ++ [fname]).getLastD "" = fname
    exact List.getLastD_concat ..
  rw [hmap, List.map_id]
  exact sortStrings_sorted _

theorem discoverSkills_sorted (fs : FS) (s c : FsPath) :
    List.Sorted strLeRel ((discoverSkills fs s c).map srcFileName) := by
  unfold discoverSkills
  rw [List.map_map]
  have hmap :
      ((sortStrings (childNames fs (s ++ ["skills"]))).filter (fun d =>
        isDirAt fs ((s ++ ["skills"]) ++ [d]) &&
          pExists fs ((s ++ ["skills"]) ++ [d, "SKILL.md"]))).map
        (srcFileName ∘ fun d =>
          mkItem fs "skills" d ((s ++ ["skills"]) ++ [d])
            ((c ++ ["skills"]) ++ [d])) =
      ((sortStrings (childNames fs (s ++ ["skills"]))).filter (fun d =>
        isDirAt fs ((s ++ ["skills"]) ++ [d]) &&
          pExists fs ((s ++ ["skills"]) ++ [d, "SKILL.md"]))).map id := by
    apply List.map_congr_left
    intro d _
    show ((s ++ ["skills"]) ++ [d]).getLastD "" = d
    exact List.getLastD_concat ..
  rw [hmap, List.map_id]
  exact List.Sorted.filter _ (sortStrings_sorted _)

theorem mkItem_selected_status (fs : FS) (cat n : String) (src dst : FsPath) :
    (mkItem fs cat n src dst).selected =
      ((mkItem fs cat n src dst).status == ItemStatus.INSTALLED) ∧
    (mkItem fs cat n src dst).status = (check_status fs src dst).1 :=
  ⟨rfl, rfl⟩

theorem discoverFileCategory_fields (fs : FS) (s c : FsPath) (catName : String) :
    ∀ it ∈ discoverFileCategory fs s c catName,
      it.selected = (it.status == ItemStatus.INSTALLED) ∧
      it.status = (check_status fs it.source_path it.dest_path).1 := by
  intro it hit
  unfold discoverFileCategory at hit
  obtain ⟨fname, _, rfl⟩ := List.mem_map.mp hit
  exact mkItem_selected_status ..

theorem discoverSkills_fields (fs : FS) (s c : FsPath) :
    ∀ it ∈ discoverSkills fs s c,
      it.selected = (it.status == ItemStatus.INSTALLED) ∧
      it.status = (check_status fs it.source_path it.dest_path).1 := by
  intro it hit
  unfold discoverSkills at hit
  obtain ⟨d, _, rfl⟩ := List.mem_map.mp hit
  exact mkItem_selected_status ..

/-- Claim C10, amended. The classifier is total (the embedding returns a
status for every input; exceptions are folded into Conflict), and a
dangling symbolic link at destPath is classified Conflict — never
NotInstalled — whenever sourcePath resolves to an existing object; when
the link's resolution succeeds the detail names the actual and expected
targets, and when it fails the detail carries the resolution error text.
(Without the existing-source proviso a dangling link can be classified
Installed: see the counterexample.) -/
theorem dangling_symlink_conflict (fs : FS) (src dst : FsPath)
    (hsym : isSymlink fs dst = true)
    (hdang : pExists fs dst = false)
    (hsrc : pExists fs src = true) :
    (check_status fs src dst).1 = ItemStatus.CONFLICT ∧
    (∀ t e, resolveFS fs dst = some t → resolveFS fs src = some e →
      (check_status fs src dst).2 =
        some ("Symlink points to " ++ renderPath t ++ ", expected " ++
          renderPath e)) ∧
    (resolveFS fs dst = none →
      (check_status fs src dst).2 = some (resolveErrorMsg dst)) := by
  rcases hr : resolveFS fs dst with _ | t
  · refine ⟨?_, ?_, ?_⟩
    · rw [check_status]; simp [hsym, hr]
    · intro t e ht _; cases ht
    · intro _; rw [check_status]; simp [hsym, hr]
  · have hlt : FS.lookup fs t = none := by
      unfold pExists at hdang
      rw [hr] at hdang
      simpa using hdang
    rcases hr' : resolveFS fs src with _ | e
    · unfold pExists at hsrc
      rw [hr'] at hsrc
      cases hsrc
    · have hle : (FS.lookup fs e).isSome = true := by
        unfold pExists at hsrc
        rw [hr'] at hsrc
        exact hsrc
      have hte : t ≠ e := by
        intro hcontra
        rw [← hcontra, hlt] at hle
        simp at hle
      refine ⟨?_, ?_, ?_⟩
      · rw [check_status]; simp [hsym, hr, hr', hte]
      · intro t' e' ht' he'
        cases ht'
        cases he'
        rw [check_status]; simp [hsym, hr, hr', hte]
      · intro hcontra; cases hcontra

/-- Witness for C10. A dangling link pointing away from an existing
source is Conflict. -/
theorem dangling_symlink_conflict_witness :
    (check_status danglingElsewhereFS ["repo", "commands", "foo.md"]
      ["home", ".claude", "commands", "foo.md"]).1 = ItemStatus.CONFLICT :=
  (dangling_symlink_conflict danglingElsewhereFS ["repo", "commands", "foo.md"]
    ["home", ".claude", "commands", "foo.md"]
    (by decide) (by decide) (by decide)).1

/-- Counterexample for C10. In `danglingFS` the destination is a dangling
symlink — `exists()` is false — yet the classifier reports Installed, not
Conflict, because the link names the (equally nonexistent) source path
and the two resolve to the same path. -/
theorem dangling_symlink_installed_counterexample :
    isSymlink danglingFS ["home", ".claude", "commands", "foo.md"] = true ∧
    pExists danglingFS ["home", ".claude", "commands", "foo.md"] = false ∧
    (check_status danglingFS ["repo", "commands", "foo.md"]
      ["home", ".claude", "commands", "foo.md"]).1 = ItemStatus.INSTALLED := by
  exact ⟨by decide, by decide, by decide⟩
